import Mathlib

/-!
Verification development for the chrome-homepage shortcut/settings state
manager (src/unnamed/part_000, src/src/App.tsx).

The persisted storage layer is modelled at the JSON level: the raw string
stored under a key is represented as an `Option Json`, where `none` stands
for an absent key or a string that JSON.parse rejects, and `some j` for a
string that parses to the JSON value `j`.  Numbers are modelled as rationals
(JSON.parse never yields NaN or infinities, so the finiteness guard in the
code is always satisfied by a parsed number).

The browser URL constructor (WHATWG `new URL`) is an external collaborator
of the code; `parseURL` below models its behaviour on absolute URLs of the
special schemes http, https, ftp, ws and wss, including the details the
claims exercise: empty port after a colon is accepted, a space is a
forbidden host code point, and the serialization re-prefixes the path.
Model simplifications (documented, not exercised by any claim input):
non-special schemes, userinfo, IPv6 hosts, IDNA of non-ASCII hosts and
path-segment normalization are unsupported and yield parse failure or a
verbatim path.
-/

inductive Json where
  | null
  | bool (b : Bool)
  | num (q : Rat)
  | str (s : String)
  | arr (elems : List Json)
  | obj (fields : List (String × Json))

inductive DisplayMode where
  | auto
  | icon
  | text
deriving DecidableEq, Repr

structure Site where
  id : String
  url : String
  name : String
  color : String
  iconUrl : Option String
  displayMode : DisplayMode
deriving DecidableEq, Repr

structure HomepageSettings where
  backgroundImage : Option String
  blurEnabled : Bool
  blurStrength : Rat
deriving DecidableEq, Repr

def PRESET_COLORS : List String :=
  ["#4A7DFF", "#00E9FF", "#9259FF", "#FF4A7A", "#FFB020", "#2BD576", "#2E7DFF"]

/-- The value PRESET_COLORS[0] used as the fallback color. -/
def presetDefaultColor : String := "#4A7DFF"

/-- Field lookup on a JSON object, last occurrence of the key wins, as in
the objects produced by JSON.parse; on a non-object value every lookup is
absent, matching the undefined property access on JavaScript primitives. -/
def lookupField : List (String × Json) → String → Option Json
  | [], _ => none
  | (k, v) :: rest, key =>
    match lookupField rest key with
    | some w => some w
    | none => if k = key then some v else none

def Json.getField? : Json → String → Option Json
  | Json.obj fields, key => lookupField fields key
  | _, _ => none

def jsonStr? : Option Json → Option String
  | some (Json.str s) => some s
  | _ => none

/-- Whitespace as trimmed by String.prototype.trim (ASCII subset). -/
def isJsWS (c : Char) : Bool :=
  c == ' ' || c == Char.ofNat 9 || c == Char.ofNat 10 || c == Char.ofNat 13 || c == Char.ofNat 12 || c == Char.ofNat 11

/-- Model of String.prototype.trim. -/
def jsTrim (s : String) : String :=
  String.mk (((s.data.dropWhile isJsWS).reverse.dropWhile isJsWS).reverse)

def lowerStr (s : String) : String :=
  String.mk (s.data.map Char.toLower)

def leadsWith : List Char → List Char → Bool
  | [], _ => true
  | _ :: _, [] => false
  | p :: ps, c :: cs => p == c && leadsWith ps cs

/-- Model of the regular expression test for a leading http:// or https://,
case-insensitive. -/
def startsWithHttpScheme (s : String) : Bool :=
  leadsWith "http://".data (lowerStr s).data || leadsWith "https://".data (lowerStr s).data

/-- normalizeUrl from the source: trim, keep an explicit http(s) prefix,
otherwise prepend https://. -/
def normalizeUrl (raw : String) : String :=
  let value := jsTrim raw
  if value = "" then ""
  else if startsWithHttpScheme value then value
  else "https://" ++ value

def isSchemeRestChar (c : Char) : Bool :=
  c.isAlpha || c.isDigit || c == '+' || c == '-' || c == '.'

def splitSchemeAux : List Char → List Char → Option (List Char × List Char)
  | _, [] => none
  | acc, c :: rest =>
    if c == ':' then some (acc.reverse, rest)
    else if isSchemeRestChar c then splitSchemeAux (c :: acc) rest
    else none

def splitScheme : List Char → Option (List Char × List Char)
  | [] => none
  | c :: rest => if c.isAlpha then splitSchemeAux [c] rest else none

def defaultPort : String → Option Nat
  | "http" => some 80
  | "https" => some 443
  | "ftp" => some 21
  | "ws" => some 80
  | "wss" => some 443
  | _ => none

def isSpecialScheme (scheme : String) : Bool :=
  (defaultPort scheme).isSome

/-- Forbidden domain code points of the WHATWG host parser, together with
the model restriction that non-ASCII hosts (which the browser would run
through IDNA) are rejected. -/
def isForbiddenHostChar (c : Char) : Bool :=
  c.toNat < 0x21 || c == '#' || c == '%' || c == '/' || c == ':' || c == '<' ||
  c == '>' || c == '?' || c == '@' || c == '[' || c == ']' || c == '^' ||
  c == '|' || c == '"' || c == Char.ofNat 92 || c.toNat ≥ 0x7f

def isAuthorityEnd (c : Char) : Bool :=
  c == '/' || c == '?' || c == '#' || c == Char.ofNat 92

/-- Port parser: empty buffer means no port, digits only, at most 65535,
and the default port of the scheme is normalized away. -/
def parsePort (cs : List Char) (scheme : String) : Option (Option Nat) :=
  if cs = [] then some none
  else if cs.all Char.isDigit then
    let n := cs.foldl (fun a c => a * 10 + (c.toNat - 48)) 0
    if n > 65535 then none
    else if defaultPort scheme = some n then some none
    else some (some n)
  else none

structure URLRec where
  scheme : String
  host : String
  port : Option Nat
  rest : String
deriving DecidableEq, Repr

/-- Model of the WHATWG absolute-URL parser for the special schemes, as
invoked by the new URL constructor in the source.  After the scheme colon
any run of slashes or backslashes is skipped, the authority runs until a
slash, backslash, question mark or hash, the host ends at the first colon,
an empty port buffer is legal, and the remainder is kept as the path. -/
def parseURL (input : String) : Option URLRec :=
  match splitScheme input.data with
  | none => none
  | some (schemeChars, afterScheme) =>
    let scheme := lowerStr (String.mk schemeChars)
    if ¬ isSpecialScheme scheme then none
    else
      let afterSlashes := afterScheme.dropWhile (fun c => c == '/' || c == Char.ofNat 92)
      let authority := afterSlashes.takeWhile (fun c => !(isAuthorityEnd c))
      let rest := afterSlashes.dropWhile (fun c => !(isAuthorityEnd c))
      if authority.contains '@' then none
      else
        let hostChars := authority.takeWhile (fun c => c != ':')
        let portChars := (authority.dropWhile (fun c => c != ':')).drop 1
        if hostChars = [] then none
        else if hostChars.any isForbiddenHostChar then none
        else
          match parsePort portChars scheme with
          | none => none
          | some port =>
            some { scheme := scheme,
                   host := lowerStr (String.mk hostChars),
                   port := port,
                   rest := String.mk (rest.map (fun c => if c == Char.ofNat 92 then '/' else c)) }

def URLRec.originStr (u : URLRec) : String :=
  u.scheme ++ "://" ++ u.host ++
    (match u.port with
     | none => ""
     | some p => ":" ++ toString p)

/-- Model of URL serialization (the toString call in the source): origin
followed by the path, which defaults to a single slash. -/
def URLRec.toStr (u : URLRec) : String :=
  u.originStr ++
    (match u.rest.data with
     | [] => "/"
     | c :: _ => if c == '/' then u.rest else "/" ++ u.rest)

def isHexDigitChar (c : Char) : Bool :=
  c.isDigit || ('a' ≤ c && c ≤ 'f') || ('A' ≤ c && c ≤ 'F')

/-- A 6-hex-digit RGB color string, the shape the data model section of the
specification prescribes for the color field. -/
def validHexColor (s : String) : Bool :=
  match s.data with
  | '#' :: rest => rest.length == 6 && rest.all isHexDigitChar
  | _ => false

def isURIComponentUnreserved (c : Char) : Bool :=
  c.isAlpha || c.isDigit || c == '-' || c == '_' || c == '.' || c == '!' ||
  c == '~' || c == '*' || c == Char.ofNat 39 || c == '(' || c == ')'

def hexDigitUpper (n : Nat) : Char :=
  if n < 10 then Char.ofNat (48 + n) else Char.ofNat (55 + n)

def utf8ByteList (c : Char) : List Nat :=
  let n := c.toNat
  if n < 0x80 then [n]
  else if n < 0x800 then [0xC0 + n / 0x40, 0x80 + n % 0x40]
  else if n < 0x10000 then [0xE0 + n / 0x1000, 0x80 + (n / 0x40) % 0x40, 0x80 + n % 0x40]
  else [0xF0 + n / 0x40000, 0x80 + (n / 0x1000) % 0x40, 0x80 + (n / 0x40) % 0x40, 0x80 + n % 0x40]

def percentEncodeChar (c : Char) : List Char :=
  (utf8ByteList c).foldr (fun b acc => '%' :: hexDigitUpper (b / 16) :: hexDigitUpper (b % 16) :: acc) []

/-- Model of encodeURIComponent. -/
def encodeURIComponent (s : String) : String :=
  String.mk (s.data.foldr (fun c acc => if isURIComponentUnreserved c then c :: acc else percentEncodeChar c ++ acc) [])

/-- getFaviconUrl from the source: favicon-service URL parameterized by the
URL-encoded origin, absent when the URL does not parse.  The identical
inline derivation in loadSitesFromStorage is also this function. -/
def getFaviconUrl (url : String) : Option String :=
  match parseURL url with
  | none => none
  | some u => some ("https://www.google.com/s2/favicons?domain_url=" ++ encodeURIComponent u.originStr ++ "&sz=128")

/-- The parse-and-check-scheme pattern the source repeats (and the
specification names validateHttpUrl): parse as an absolute URL, succeed
only for scheme http or https, and return the canonicalized string. -/
def validateHttpUrl (candidate : String) : Option String :=
  match parseURL candidate with
  | none => none
  | some u => if u.scheme = "http" ∨ u.scheme = "https" then some u.toStr else none

/-- normalizeHttpUrlOrNull from the source. -/
def normalizeHttpUrlOrNull (raw : String) : Option String :=
  let candidate := normalizeUrl raw
  if candidate = "" then none
  else validateHttpUrl candidate

/-- The keep condition of the filter in loadSitesFromStorage: the element
has string-typed id, url and name. -/
def storedSiteWellFormed (j : Json) : Bool :=
  (jsonStr? (j.getField? "id")).isSome &&
  (jsonStr? (j.getField? "url")).isSome &&
  (jsonStr? (j.getField? "name")).isSome

/-- The map step of loadSitesFromStorage, normalizing a kept element:
displayMode coerced to the enumeration (default auto), color kept when a
string and otherwise the first preset, iconUrl the stored string when
present and otherwise the favicon derivation from the url field. -/
def normalizeStoredSite (j : Json) : Site :=
  let id := (jsonStr? (j.getField? "id")).getD ""
  let url := (jsonStr? (j.getField? "url")).getD ""
  let name := (jsonStr? (j.getField? "name")).getD ""
  let displayMode :=
    match jsonStr? (j.getField? "displayMode") with
    | some "auto" => DisplayMode.auto
    | some "icon" => DisplayMode.icon
    | some "text" => DisplayMode.text
    | _ => DisplayMode.auto
  let iconUrl :=
    match jsonStr? (j.getField? "iconUrl") with
    | some u => some u
    | none => getFaviconUrl url
  let color :=
    match jsonStr? (j.getField? "color") with
    | some c => c
    | none => presetDefaultColor
  { id := id, url := url, name := name, color := color, iconUrl := iconUrl, displayMode := displayMode }

/-- loadSitesFromStorage: absent key or unparseable string (the none case)
and a parsed value that is not an array both give the empty collection;
an array is filtered to the well-formed elements, each normalized. -/
def loadSitesFromStorage (raw : Option Json) : List Site :=
  match raw with
  | none => []
  | some (Json.arr items) => (items.filter storedSiteWellFormed).map normalizeStoredSite
  | some _ => []

def displayModeToString : DisplayMode → String
  | DisplayMode.auto => "auto"
  | DisplayMode.icon => "icon"
  | DisplayMode.text => "text"

/-- JSON.stringify of one site object, with the field insertion order the
source uses when it builds sites. -/
def siteToJson (s : Site) : Json :=
  Json.obj [("id", Json.str s.id), ("url", Json.str s.url), ("name", Json.str s.name),
            ("color", Json.str s.color),
            ("iconUrl", match s.iconUrl with | some u => Json.str u | none => Json.null),
            ("displayMode", Json.str (displayModeToString s.displayMode))]

/-- The persistence effect serializes the whole collection with
JSON.stringify; parsing that string back yields exactly this value. -/
def sitesToJson (ss : List Site) : Json :=
  Json.arr (ss.map siteToJson)

/-- loadSettingsFromStorage: defaults on absence or parse failure, the
background kept only when it is a string that validates as an http or https
URL, blurEnabled kept only when boolean, blurStrength kept only when a
number and then clamped into the interval from 0 to 40. -/
def loadSettingsFromStorage (raw : Option Json) : HomepageSettings :=
  match raw with
  | none => { backgroundImage := none, blurEnabled := true, blurStrength := 16 }
  | some j =>
    let blurStrengthRaw : Rat :=
      match j.getField? "blurStrength" with
      | some (Json.num q) => q
      | _ => 16
    let backgroundImage : Option String :=
      match jsonStr? (j.getField? "backgroundImage") with
      | some s => validateHttpUrl s
      | none => none
    let blurEnabled : Bool :=
      match j.getField? "blurEnabled" with
      | some (Json.bool b) => b
      | _ => true
    { backgroundImage := backgroundImage,
      blurEnabled := blurEnabled,
      blurStrength := min 40 (max 0 blurStrengthRaw) }

/-- The in-memory state of the App component that the claims are about:
the collection, the settings, the armed-for-deletion id, the icon failure
flags (the set of ids with the flag, in insertion order), and the
long-press timer bookkeeping (the pending timer as the id the scheduled
callback would arm, and the triggered flag). -/
structure AppState where
  sites : List Site
  settings : HomepageSettings
  deleteArmedId : Option String
  iconErrorById : List String
  longPressPending : Option String
  longPressTriggered : Bool
deriving DecidableEq, Repr

/-- removeSite from the source: filter the collection by id and clear the
armed state. -/
def removeSite (st : AppState) (id : String) : AppState :=
  { st with sites := st.sites.filter (fun s => s.id != id), deleteArmedId := none }

/-- addSite from the source, with the generated id and the four draft
values passed explicitly.  Rejection (empty normalized url, empty trimmed
name, parse failure, or a scheme other than http and https) leaves the
state unchanged; acceptance appends the new site last. -/
def addSite (st : AppState) (newId draftUrl draftName draftColor : String) (draftDisplayMode : DisplayMode) : AppState :=
  let url := normalizeUrl draftUrl
  let name := jsTrim draftName
  if url = "" ∨ name = "" then st
  else
    match parseURL url with
    | none => st
    | some u =>
      if ¬ (u.scheme = "http" ∨ u.scheme = "https") then st
      else
        { st with sites := st.sites ++
            [{ id := newId, url := u.toStr, name := name, color := draftColor,
               iconUrl := getFaviconUrl u.toStr, displayMode := draftDisplayMode }] }

/-- markIconError from the source: set the flag for the id, keeping the
record unchanged when the flag is already present. -/
def markIconError (st : AppState) (id : String) : AppState :=
  { st with iconErrorById :=
      if st.iconErrorById.contains id then st.iconErrorById else st.iconErrorById ++ [id] }

def iconFailed (st : AppState) (id : String) : Bool :=
  st.iconErrorById.contains id

/-- JavaScript truthiness of a string-or-null value, as tested by the
source's bare if and double-negation on deleteArmedId and iconUrl: null
and the empty string are falsy, every other string is truthy. -/
def jsTruthy : Option String → Bool
  | none => false
  | some s => s != ""

/-- The per-tile display decision from the render path: prefer the initial
glyph for displayMode text, otherwise try the icon exactly when the icon
URL is truthy (non-null and non-empty) and the failure flag for this id is
unset. -/
def tileShowsIcon (st : AppState) (site : Site) : Bool :=
  if site.displayMode = DisplayMode.text then false
  else jsTruthy site.iconUrl && !(iconFailed st site.id)

/-- applyBackgroundUrl from the source, with the draft field passed
explicitly: blank input clears the background, invalid non-blank input
returns without touching the state, valid input stores the canonicalized
URL. -/
def applyBackgroundUrl (st : AppState) (draftBgUrl : String) : AppState :=
  let normalized := if jsTrim draftBgUrl ≠ "" then normalizeHttpUrlOrNull draftBgUrl else none
  if jsTrim draftBgUrl ≠ "" ∧ normalized = none then st
  else { st with settings := { st.settings with backgroundImage := normalized } }

/-- The clear-background button handler. -/
def clearBackground (st : AppState) : AppState :=
  { st with settings := { st.settings with backgroundImage := none } }

/-- The blur toggle handler. -/
def setBlurEnabled (st : AppState) (b : Bool) : AppState :=
  { st with settings := { st.settings with blurEnabled := b } }

/-- The blur-strength slider onChange handler: it stores the numeric value
of the range input as is; no clamping appears in the handler. -/
def setBlurStrength (st : AppState) (n : Rat) : AppState :=
  { st with settings := { st.settings with blurStrength := n } }

/-- armDeleteWithLongPress from the source: reset the triggered flag,
cancel any previous pending timer and schedule a new one for this id. -/
def armDeleteWithLongPress (st : AppState) (id : String) : AppState :=
  { st with longPressTriggered := false, longPressPending := some id }

/-- cancelLongPress from the source (pointer-up and pointer-cancel). -/
def cancelLongPress (st : AppState) : AppState :=
  { st with longPressPending := none }

/-- The scheduled timer callback firing: only a still-pending timer runs;
it sets the triggered flag and arms its id, and is no longer pending. -/
def fireLongPressTimer (st : AppState) : AppState :=
  match st.longPressPending with
  | none => st
  | some id => { st with longPressTriggered := true, deleteArmedId := some id, longPressPending := none }

/-- The tile onClick handler.  The boolean result is whether navigation
proceeds.  The handler body never reads which tile was clicked: a
triggered long press suppresses the click and clears the flag; otherwise
the bare truthiness test on the armed id (null and the empty string are
falsy) decides whether navigation is suppressed, with no further effect
either way. -/
def clickTile (st : AppState) (_tileId : String) : AppState × Bool :=
  if st.longPressTriggered then ({ st with longPressTriggered := false }, false)
  else if jsTruthy st.deleteArmedId then (st, false)
  else (st, true)

/-- Pointer-down on an empty area of the grid wrapper or the app
background (the case where the event target is the element itself). -/
def backgroundPointerDown (st : AppState) : AppState :=
  { st with deleteArmedId := none }

/-- The state-mutating session operations, used to state monotonicity and
reachability properties across the whole interface. -/
inductive AppOp where
  | markIconError (id : String)
  | removeSite (id : String)
  | addSite (newId draftUrl draftName draftColor : String) (dm : DisplayMode)
  | applyBackgroundUrl (draft : String)
  | clearBackground
  | setBlurEnabled (b : Bool)
  | setBlurStrength (n : Rat)
  | armDeleteWithLongPress (id : String)
  | cancelLongPress
  | fireLongPressTimer
  | clickTile (id : String)
  | backgroundPointerDown
deriving DecidableEq

def applyOp (st : AppState) : AppOp → AppState
  | AppOp.markIconError id => markIconError st id
  | AppOp.removeSite id => removeSite st id
  | AppOp.addSite newId u n c dm => addSite st newId u n c dm
  | AppOp.applyBackgroundUrl draft => applyBackgroundUrl st draft
  | AppOp.clearBackground => clearBackground st
  | AppOp.setBlurEnabled b => setBlurEnabled st b
  | AppOp.setBlurStrength n => setBlurStrength st n
  | AppOp.armDeleteWithLongPress id => armDeleteWithLongPress st id
  | AppOp.cancelLongPress => cancelLongPress st
  | AppOp.fireLongPressTimer => fireLongPressTimer st
  | AppOp.clickTile id => (clickTile st id).1
  | AppOp.backgroundPointerDown => backgroundPointerDown st

/-- Whether an operation is the blur-strength slider. -/
def isSetBlurStrengthOp : AppOp → Bool
  | AppOp.setBlurStrength _ => true
  | _ => false

/-- Refinement reference for claim C1, written after the wording of the
specification for loadShortcuts: keep exactly the elements with
string-typed id, url and name, and normalize each kept element. -/
def coerceDisplayModeSpec : Option String → DisplayMode
  | some "auto" => DisplayMode.auto
  | some "icon" => DisplayMode.icon
  | some "text" => DisplayMode.text
  | _ => DisplayMode.auto

/-- Refinement reference for claim C1: the per-element normalization the
specification describes, returning none for a malformed element. -/
def specNormalizedShortcut? (j : Json) : Option Site :=
  match jsonStr? (j.getField? "id"), jsonStr? (j.getField? "url"), jsonStr? (j.getField? "name") with
  | some id, some url, some name =>
    some { id := id, url := url, name := name,
           color := (jsonStr? (j.getField? "color")).getD presetDefaultColor,
           iconUrl :=
             match jsonStr? (j.getField? "iconUrl") with
             | some u => some u
             | none => getFaviconUrl url,
           displayMode := coerceDisplayModeSpec (jsonStr? (j.getField? "displayMode")) }
  | _, _, _ => none

/-- Refinement reference for claim C1: the load behaviour the
specification describes, dropping malformed elements one by one. -/
def loadShortcutsSpec (raw : Option Json) : List Site :=
  match raw with
  | none => []
  | some (Json.arr elems) => elems.filterMap specNormalizedShortcut?
  | some _ => []

theorem specNormalizedShortcut_eq (j : Json) :
    specNormalizedShortcut? j =
      if storedSiteWellFormed j = true then some (normalizeStoredSite j) else none := by
  unfold specNormalizedShortcut? storedSiteWellFormed normalizeStoredSite coerceDisplayModeSpec
  cases hid : jsonStr? (j.getField? "id") <;>
    cases hurl : jsonStr? (j.getField? "url") <;>
      cases hname : jsonStr? (j.getField? "name") <;>
        cases hc : jsonStr? (j.getField? "color") <;>
          simp [hid, hurl, hname, hc]

theorem filter_map_decode (items : List Json) :
    (items.filter storedSiteWellFormed).map normalizeStoredSite = items.filterMap specNormalizedShortcut? := by
  induction items with
  | nil => rfl
  | cons a as ih =>
    rw [List.filter_cons, List.filterMap_cons, specNormalizedShortcut_eq]
    cases h : storedSiteWellFormed a <;> simp [h, ih]

/-- C1: loadShortcuts is total on every stored value (the Lean function is
total by construction, so it never throws); an absent or unparseable
string and a parsed non-array value give the empty collection, and an
array gives exactly the well-formed elements, each normalized to the
coerced displayMode, defaulted color and stored-or-derived iconUrl, the
malformed elements being dropped without discarding the rest — stated as
equality with the function written from the specification text. -/
theorem c1_loadShortcuts_matches_spec (raw : Option Json) :
    loadSitesFromStorage raw = loadShortcutsSpec raw := by
  cases raw with
  | none => rfl
  | some j =>
    cases j with
    | arr elems => simpa [loadSitesFromStorage, loadShortcutsSpec] using filter_map_decode elems
    | null => rfl
    | bool b => rfl
    | num q => rfl
    | str s => rfl
    | obj fields => rfl

/-- Icon re-derivation on load when the stored iconUrl is absent. -/
def reDeriveIcon (s : Site) : Site :=
  match s.iconUrl with
  | some _ => s
  | none => { s with iconUrl := getFaviconUrl s.url }

theorem siteToJson_wellFormed (s : Site) : storedSiteWellFormed (siteToJson s) = true := by
  rfl

theorem normalizeStoredSite_siteToJson (s : Site) :
    normalizeStoredSite (siteToJson s) = reDeriveIcon s := by
  cases s with
  | mk id url name color iconUrl displayMode => cases iconUrl <;> cases displayMode <;> rfl

theorem map_reDeriveIcon_of_isSome :
    ∀ (l : List Site), (∀ x ∈ l, x.iconUrl.isSome = true) → l.map reDeriveIcon = l := by
  intro l
  induction l with
  | nil => intro _; rfl
  | cons a as ih =>
    intro h
    have ha := h a (by simp)
    have has := ih (fun x hx => h x (by simp [hx]))
    simp only [List.map_cons, has]
    have : reDeriveIcon a = a := by
      unfold reDeriveIcon
      cases hio : a.iconUrl with
      | some u => rfl
      | none => rw [hio] at ha; simp at ha
    rw [this]

/-- C2: persistence round-trip — serializing the collection and loading it
back yields each site with iconUrl re-derived from its url when it was
absent, and yields the collection exactly when every iconUrl is present. -/
theorem c2_save_load_round_trip (ss : List Site) :
    loadSitesFromStorage (some (sitesToJson ss)) = ss.map reDeriveIcon ∧
    ((∀ x ∈ ss, x.iconUrl.isSome = true) → loadSitesFromStorage (some (sitesToJson ss)) = ss) := by
  have h1 : loadSitesFromStorage (some (sitesToJson ss)) = ss.map reDeriveIcon := by
    simp only [loadSitesFromStorage, sitesToJson]
    induction ss with
    | nil => rfl
    | cons a as ih =>
      simp only [List.map_cons, List.filter_cons, siteToJson_wellFormed, if_true,
        normalizeStoredSite_siteToJson, ih]
  refine ⟨h1, fun hall => ?_⟩
  rw [h1, map_reDeriveIcon_of_isSome ss hall]

def sampleSettings : HomepageSettings :=
  { backgroundImage := none, blurEnabled := true, blurStrength := 16 }

def sampleSiteA : Site :=
  { id := "a", url := "https://a.example/", name := "Alpha", color := "#4A7DFF",
    iconUrl := some "https://icons.example/a.png", displayMode := DisplayMode.auto }

def sampleSiteB : Site :=
  { id := "b", url := "https://b.example/", name := "Beta", color := "#00E9FF",
    iconUrl := none, displayMode := DisplayMode.text }

def sampleState : AppState :=
  { sites := [sampleSiteA, sampleSiteB], settings := sampleSettings,
    deleteArmedId := none, iconErrorById := [], longPressPending := none,
    longPressTriggered := false }

/-- C2 witness: a one-element collection whose iconUrl is present loads
back unchanged. -/
theorem c2_save_load_round_trip_witness :
    loadSitesFromStorage (some (sitesToJson [sampleSiteA])) = [sampleSiteA] :=
  (c2_save_load_round_trip [sampleSiteA]).2 (by decide)

/-- C3 counterexample: with shortcut a armed and no triggered long press, a
click on tile b leaves the armed id at a; it does not become none, so the
click does not disarm. -/
theorem c3_click_other_tile_counterexample :
    (clickTile { sampleState with deleteArmedId := some "a" } "b").1.deleteArmedId = some "a" ∧
    (clickTile { sampleState with deleteArmedId := some "a" } "b").1.deleteArmedId ≠ none := by
  constructor
  · rfl
  · decide

/-- C3 amended: while a shortcut is armed under a truthy (non-empty) id
and no long press is triggered, a click on any tile suppresses navigation
and leaves the whole state unchanged (the armed id in particular stays,
so the click does not disarm); when the armed id is the falsy empty
string — a site id reachable only through the tolerated corrupt-storage
path — the bare truthiness guard fails and the click navigates, again
changing nothing; a pointer-down on an empty area of the grid or
background sets the armed id to none and changes nothing else. -/
theorem c3_amended_disarm_behaviour :
    (∀ (st : AppState) (tileId : String), st.longPressTriggered = false →
        jsTruthy st.deleteArmedId = true →
        clickTile st tileId = (st, false)) ∧
    (∀ (st : AppState) (tileId : String), st.longPressTriggered = false →
        st.deleteArmedId = some "" →
        clickTile st tileId = (st, true)) ∧
    (∀ st : AppState,
        (backgroundPointerDown st).deleteArmedId = none ∧
        (backgroundPointerDown st).sites = st.sites ∧
        (backgroundPointerDown st).settings = st.settings ∧
        (backgroundPointerDown st).iconErrorById = st.iconErrorById ∧
        (backgroundPointerDown st).longPressPending = st.longPressPending ∧
        (backgroundPointerDown st).longPressTriggered = st.longPressTriggered) := by
  refine ⟨?_, ?_, ?_⟩
  · intro st tileId ht ha
    simp [clickTile, ht, ha]
  · intro st tileId ht ha
    simp [clickTile, jsTruthy, ht, ha]
  · intro st
    exact ⟨rfl, rfl, rfl, rfl, rfl, rfl⟩

theorem c3_amended_disarm_behaviour_witness :
    clickTile { sampleState with deleteArmedId := some "a" } "b" =
      ({ sampleState with deleteArmedId := some "a" }, false) ∧
    clickTile { sampleState with deleteArmedId := some "" } "b" =
      ({ sampleState with deleteArmedId := some "" }, true) :=
  ⟨c3_amended_disarm_behaviour.1 { sampleState with deleteArmedId := some "a" } "b"
      (by decide) (by decide),
   c3_amended_disarm_behaviour.2.1 { sampleState with deleteArmedId := some "" } "b"
      (by decide) (by decide)⟩

/-- C4 counterexample: normalizeHttpUrlOrNull applied to ftp://x.com does
not return null — the https:// prefix added by normalizeUrl makes the
string parse as an https URL with host ftp. -/
theorem c4_ftp_normalization_counterexample :
    normalizeHttpUrlOrNull "ftp://x.com" = some "https://ftp//x.com" ∧
    normalizeHttpUrlOrNull "ftp://x.com" ≠ none := by
  constructor
  · rfl
  · decide

/-- C4 amended: validating ftp://x.com directly fails (the scheme is ftp),
but normalization first prefixes https://, and the result parses as an
https URL with host ftp and path //x.com, so normalizeHttpUrlOrNull
returns that URL rather than null. -/
theorem c4_amended_ftp_validation :
    validateHttpUrl "ftp://x.com" = none ∧
    normalizeUrl "ftp://x.com" = "https://ftp://x.com" ∧
    normalizeHttpUrlOrNull "ftp://x.com" = some "https://ftp//x.com" := by
  refine ⟨?_, ?_, ?_⟩ <;> rfl

theorem addSite_frame (st : AppState) (a b c d : String) (dm : DisplayMode) :
    (addSite st a b c d dm).settings = st.settings ∧
    (addSite st a b c d dm).iconErrorById = st.iconErrorById := by
  simp only [addSite]
  split
  · exact ⟨rfl, rfl⟩
  · split
    · exact ⟨rfl, rfl⟩
    · split
      · exact ⟨rfl, rfl⟩
      · exact ⟨rfl, rfl⟩

theorem applyBackgroundUrl_frame (st : AppState) (d : String) :
    (applyBackgroundUrl st d).settings.blurStrength = st.settings.blurStrength ∧
    (applyBackgroundUrl st d).settings.blurEnabled = st.settings.blurEnabled ∧
    (applyBackgroundUrl st d).iconErrorById = st.iconErrorById ∧
    (applyBackgroundUrl st d).sites = st.sites := by
  simp only [applyBackgroundUrl]
  split <;> split <;> exact ⟨rfl, rfl, rfl, rfl⟩

theorem fireLongPressTimer_frame (st : AppState) :
    (fireLongPressTimer st).settings = st.settings ∧
    (fireLongPressTimer st).iconErrorById = st.iconErrorById ∧
    (fireLongPressTimer st).sites = st.sites := by
  unfold fireLongPressTimer
  split
  · exact ⟨rfl, rfl, rfl⟩
  · exact ⟨rfl, rfl, rfl⟩

theorem clickTile_fst_cases (st : AppState) (id : String) :
    (clickTile st id).1 = { st with longPressTriggered := false } ∨ (clickTile st id).1 = st := by
  unfold clickTile
  split
  · exact Or.inl rfl
  · split
    · exact Or.inr rfl
    · exact Or.inr rfl

/-- C5 counterexample: the slider handler stores the incoming value with
no clamping, so a value of 100 is stored verbatim and violates the claimed
upper bound 40. -/
theorem c5_slider_no_clamp_counterexample :
    (setBlurStrength sampleState 100).settings.blurStrength = 100 ∧
    ¬ ((setBlurStrength sampleState 100).settings.blurStrength ≤ 40) := by
  constructor
  · rfl
  · decide

/-- C5 amended: loadSettings clamps every stored value into the interval
from 0 to 40 (default 16 when the stored field is not a number); the
slider handler stores its numeric input without clamping, and no other
operation changes blurStrength, so the bound holds for every settings
state reachable from a load through operations whose slider inputs lie in
the interval — the range the min 0 and max 40 control delivers. -/
theorem c5_amended_blur_range :
    (∀ raw : Option Json,
        0 ≤ (loadSettingsFromStorage raw).blurStrength ∧
        (loadSettingsFromStorage raw).blurStrength ≤ 40) ∧
    (∀ (st : AppState) (n : Rat), 0 ≤ n → n ≤ 40 →
        0 ≤ (setBlurStrength st n).settings.blurStrength ∧
        (setBlurStrength st n).settings.blurStrength ≤ 40) ∧
    (∀ (st : AppState) (op : AppOp), isSetBlurStrengthOp op = false →
        (applyOp st op).settings.blurStrength = st.settings.blurStrength) := by
  refine ⟨?_, ?_, ?_⟩
  · intro raw
    cases raw with
    | none =>
      constructor <;> norm_num [loadSettingsFromStorage]
    | some j =>
      simp only [loadSettingsFromStorage]
      exact ⟨le_min (by norm_num) (le_max_left 0 _), min_le_left 40 _⟩
  · intro st n h0 h40
    exact ⟨h0, h40⟩
  · intro st op hop
    cases op with
    | markIconError id => rfl
    | removeSite id => rfl
    | addSite a b c d dm =>
      simp only [applyOp]
      rw [(addSite_frame st a b c d dm).1]
    | applyBackgroundUrl d =>
      simp only [applyOp]
      exact (applyBackgroundUrl_frame st d).1
    | clearBackground => rfl
    | setBlurEnabled b => rfl
    | setBlurStrength n => simp [isSetBlurStrengthOp] at hop
    | armDeleteWithLongPress id => rfl
    | cancelLongPress => rfl
    | fireLongPressTimer =>
      simp only [applyOp]
      rw [(fireLongPressTimer_frame st).1]
    | clickTile id =>
      simp only [applyOp]
      rcases clickTile_fst_cases st id with h | h <;> rw [h]
    | backgroundPointerDown => rfl

theorem c5_amended_blur_range_witness :
    0 ≤ (setBlurStrength sampleState 20).settings.blurStrength ∧
    (setBlurStrength sampleState 20).settings.blurStrength ≤ 40 :=
  c5_amended_blur_range.2.1 sampleState 20 (by norm_num) (by norm_num)

/-- C6: applyBackground with blank input sets the background to absent;
non-blank input that fails validation is rejected with the whole state
unchanged; non-blank valid input stores the canonicalized URL. -/
theorem c6_applyBackground_cases (st : AppState) (draft : String) :
    (jsTrim draft = "" →
        applyBackgroundUrl st draft =
          { st with settings := { st.settings with backgroundImage := none } }) ∧
    (jsTrim draft ≠ "" → normalizeHttpUrlOrNull draft = none →
        applyBackgroundUrl st draft = st) ∧
    (∀ u, jsTrim draft ≠ "" → normalizeHttpUrlOrNull draft = some u →
        applyBackgroundUrl st draft =
          { st with settings := { st.settings with backgroundImage := some u } }) := by
  refine ⟨?_, ?_, ?_⟩
  · intro h
    simp [applyBackgroundUrl, h]
  · intro h hn
    simp [applyBackgroundUrl, h, hn]
  · intro u h hn
    simp [applyBackgroundUrl, h, hn]

theorem c6_applyBackground_cases_witness :
    applyBackgroundUrl sampleState "not a url" = sampleState :=
  (c6_applyBackground_cases sampleState "not a url").2.1 (by decide) (by decide)

/-- C7 counterexample: a stored element whose color field is the string
zzz is loaded with color zzz kept verbatim, and zzz is not a valid
6-hex-digit color, so the preset is not substituted for an invalid string
value. -/
theorem c7_color_not_validated_counterexample :
    (loadSitesFromStorage (some (Json.arr
        [Json.obj [("id", Json.str "a"), ("url", Json.str "https://example.com"),
                   ("name", Json.str "n"), ("color", Json.str "zzz")]]))).map Site.color = ["zzz"] ∧
    validHexColor "zzz" = false := by
  exact ⟨rfl, rfl⟩

/-- C7 amended: loading substitutes the first preset exactly when the
stored color value is missing or not a string, and keeps any string value
verbatim without hex validation; addShortcut stores the draft color
verbatim, so every shortcut color is a string but not necessarily a valid
hex color. -/
theorem c7_amended_color_fallback :
    (∀ j : Json, storedSiteWellFormed j = true →
        (jsonStr? (j.getField? "color") = none →
            (normalizeStoredSite j).color = presetDefaultColor) ∧
        (∀ c, jsonStr? (j.getField? "color") = some c →
            (normalizeStoredSite j).color = c)) ∧
    (∀ (st : AppState) (newId u n c : String) (dm : DisplayMode),
        ∀ s ∈ (addSite st newId u n c dm).sites, s ∈ st.sites ∨ s.color = c) := by
  constructor
  · intro j _
    constructor
    · intro h
      simp [normalizeStoredSite, h]
    · intro c h
      simp [normalizeStoredSite, h]
  · intro st newId u n c dm s hs
    simp only [addSite] at hs
    split at hs
    · exact Or.inl hs
    · split at hs
      · exact Or.inl hs
      · split at hs
        · exact Or.inl hs
        · rcases List.mem_append.mp hs with h | h
          · exact Or.inl h
          · right
            rw [List.mem_singleton.mp h]

theorem c7_amended_color_fallback_witness :
    (normalizeStoredSite (Json.obj [("id", Json.str "a"),
        ("url", Json.str "https://example.com"), ("name", Json.str "n")])).color =
      presetDefaultColor :=
  (c7_amended_color_fallback.1 (Json.obj [("id", Json.str "a"),
      ("url", Json.str "https://example.com"), ("name", Json.str "n")]) (by decide)).1 (by decide)

/-- C8: gesture classification.  A press released (or cancelled) before
the timer fires leaves no pending timer and the click navigates with
nothing armed; if the timer fires first, the following click is
suppressed, exactly the pressed id is armed and the click clears the
triggered flag; pressing a tile replaces any pending timer with one for
that tile and its firing replaces any armed id, so at most one shortcut
(an Option value) is armed at a time. -/
theorem c8_gesture_classification :
    (∀ (st : AppState) (id : String), st.deleteArmedId = none →
        (cancelLongPress (armDeleteWithLongPress st id)).longPressPending = none ∧
        clickTile (cancelLongPress (armDeleteWithLongPress st id)) id =
          (cancelLongPress (armDeleteWithLongPress st id), true)) ∧
    (∀ (st : AppState) (id : String),
        (fireLongPressTimer (armDeleteWithLongPress st id)).deleteArmedId = some id ∧
        (clickTile (cancelLongPress (fireLongPressTimer (armDeleteWithLongPress st id))) id).2 = false ∧
        (clickTile (cancelLongPress (fireLongPressTimer (armDeleteWithLongPress st id))) id).1.deleteArmedId = some id ∧
        (clickTile (cancelLongPress (fireLongPressTimer (armDeleteWithLongPress st id))) id).1.longPressTriggered = false) ∧
    (∀ (st : AppState) (id : String),
        (armDeleteWithLongPress st id).longPressPending = some id ∧
        (fireLongPressTimer (armDeleteWithLongPress st id)).deleteArmedId = some id) := by
  refine ⟨?_, ?_, ?_⟩
  · intro st id h
    refine ⟨rfl, ?_⟩
    simp [clickTile, jsTruthy, cancelLongPress, armDeleteWithLongPress, h]
  · intro st id
    exact ⟨rfl, rfl, rfl, rfl⟩
  · intro st id
    exact ⟨rfl, rfl⟩

theorem c8_gesture_classification_witness :
    (cancelLongPress (armDeleteWithLongPress sampleState "a")).longPressPending = none ∧
    clickTile (cancelLongPress (armDeleteWithLongPress sampleState "a")) "a" =
      (cancelLongPress (armDeleteWithLongPress sampleState "a"), true) :=
  c8_gesture_classification.1 sampleState "a" (by decide)

theorem contains_append_one (l : List String) (a b : String) :
    (l ++ [a]).contains b = (l.contains b || b == a) := by
  induction l with
  | nil =>
    simp only [List.nil_append, List.contains_cons, List.contains_nil, Bool.or_false, Bool.false_or]
  | cons x xs ih =>
    simp only [List.cons_append, List.contains_cons, ih, Bool.or_assoc]

theorem markIconError_flag_frame (st : AppState) (a b : String) (h : b ≠ a) :
    iconFailed (markIconError st a) b = iconFailed st b := by
  unfold iconFailed markIconError
  split
  · rfl
  · show (st.iconErrorById ++ [a]).contains b = st.iconErrorById.contains b
    rw [contains_append_one]
    have hba : (b == a) = false := by simp [h]
    rw [hba, Bool.or_false]

/-- C9: an icon load failure for id a changes no failure flag of any other
id, so the display decision of every site with a different id — whatever
its iconUrl — is unchanged; and across every session operation the flag,
once set for an id, stays set (it is keyed by id, not URL). -/
theorem c9_icon_failure_frame_monotone :
    (∀ (st : AppState) (a b : String), b ≠ a →
        iconFailed (markIconError st a) b = iconFailed st b) ∧
    (∀ (st : AppState) (a : String) (site : Site), site.id ≠ a →
        tileShowsIcon (markIconError st a) site = tileShowsIcon st site) ∧
    (∀ (st : AppState) (op : AppOp) (id : String), iconFailed st id = true →
        iconFailed (applyOp st op) id = true) := by
  refine ⟨markIconError_flag_frame, ?_, ?_⟩
  · intro st a site h
    unfold tileShowsIcon
    rw [markIconError_flag_frame st a site.id h]
  · intro st op id h
    cases op with
    | markIconError a =>
      show iconFailed (markIconError st a) id = true
      unfold iconFailed markIconError at *
      split
      · exact h
      · show (st.iconErrorById ++ [a]).contains id = true
        rw [contains_append_one, h, Bool.true_or]
    | removeSite i => exact h
    | addSite a b c d dm =>
      show iconFailed (addSite st a b c d dm) id = true
      unfold iconFailed
      rw [(addSite_frame st a b c d dm).2]
      exact h
    | applyBackgroundUrl d =>
      show iconFailed (applyBackgroundUrl st d) id = true
      unfold iconFailed
      rw [(applyBackgroundUrl_frame st d).2.2.1]
      exact h
    | clearBackground => exact h
    | setBlurEnabled b => exact h
    | setBlurStrength n => exact h
    | armDeleteWithLongPress i => exact h
    | cancelLongPress => exact h
    | fireLongPressTimer =>
      show iconFailed (fireLongPressTimer st) id = true
      unfold iconFailed
      rw [(fireLongPressTimer_frame st).2.1]
      exact h
    | clickTile i =>
      show iconFailed (clickTile st i).1 id = true
      unfold iconFailed
      rcases clickTile_fst_cases st i with hc | hc <;> rw [hc] <;> exact h
    | backgroundPointerDown => exact h

theorem c9_icon_failure_frame_monotone_witness :
    iconFailed (markIconError { sampleState with iconErrorById := ["a"] } "b") "a" =
      iconFailed { sampleState with iconErrorById := ["a"] } "a" ∧
    iconFailed (applyOp { sampleState with iconErrorById := ["a"] } (AppOp.removeSite "a")) "a" = true :=
  ⟨c9_icon_failure_frame_monotone.1 { sampleState with iconErrorById := ["a"] } "b" "a" (by decide),
   c9_icon_failure_frame_monotone.2.2 { sampleState with iconErrorById := ["a"] } (AppOp.removeSite "a") "a" (by decide)⟩

/-- C10: removeSite removes at most the shortcuts whose id equals the
argument: the remaining sites are a sublist of the original (original
relative order, fields untouched), every site with a different id is kept,
settings, icon-failure flags and the long-press bookkeeping are unchanged,
the armed id becomes none unconditionally, and when no site carries the id
the collection is unchanged. -/
theorem c10_removeSite_frame (st : AppState) (id : String) :
    (removeSite st id).sites.Sublist st.sites ∧
    (∀ s ∈ st.sites, s.id ≠ id → s ∈ (removeSite st id).sites) ∧
    (∀ s ∈ (removeSite st id).sites, s ∈ st.sites ∧ s.id ≠ id) ∧
    (removeSite st id).settings = st.settings ∧
    (removeSite st id).iconErrorById = st.iconErrorById ∧
    (removeSite st id).longPressPending = st.longPressPending ∧
    (removeSite st id).longPressTriggered = st.longPressTriggered ∧
    (removeSite st id).deleteArmedId = none ∧
    ((∀ s ∈ st.sites, s.id ≠ id) → (removeSite st id).sites = st.sites) := by
  refine ⟨?_, ?_, ?_, rfl, rfl, rfl, rfl, rfl, ?_⟩
  · exact List.filter_sublist st.sites
  · intro s hs hne
    exact List.mem_filter.mpr ⟨hs, by simpa [bne_iff_ne] using hne⟩
  · intro s hs
    have h := List.mem_filter.mp hs
    exact ⟨h.1, by simpa [bne_iff_ne] using h.2⟩
  · intro hall
    exact List.filter_eq_self.mpr (fun s hs => by simpa [bne_iff_ne] using hall s hs)

theorem c10_removeSite_frame_witness :
    sampleSiteA ∈ (removeSite sampleState "b").sites ∧
    (removeSite { sampleState with deleteArmedId := some "b" } "zzz").sites =
      { sampleState with deleteArmedId := some "b" }.sites :=
  ⟨(c10_removeSite_frame sampleState "b").2.1 sampleSiteA (by decide) (by decide),
   (c10_removeSite_frame { sampleState with deleteArmedId := some "b" } "zzz").2.2.2.2.2.2.2.2
     (by decide)⟩
